import Mathlib

/-!
# OrgLoop connector surface — shallow embedding and verification

This file embeds, in Lean, the parts of the OrgLoop repository needed to
settle the claims about its connector surface:

* `src/unnamed/part_000` — the agent-ctl source connector
  (`resolveEnvVar`, `AgentCtlSource.{poll, listSessions, diffState,
  buildSessionEvent}`);
* `src/transforms/agent-gate/src/agent-gate.ts` — the agent-gate transform
  (`AgentGateTransform.{init, execute}`);
* `src/connectors/openclaw/src/target.ts` — the OpenClaw target
  (`resolveEnvVar`, `resolvePath`, `interpolateTemplate`,
  `OpenClawTarget.deliver`);
* `src/packages/cli/src/resolve-connectors.ts` — `resolveConnectors`;
* `src/packages/cli/src/dotenv.ts` — `loadDotEnv`.

Modelling conventions: JavaScript values reachable from configuration and
event payloads are modelled by the JSON-like type `JVal` (floating point
numbers are modelled by `Int`; the claims never exercise fractional
values).  Effects are passed explicitly: the process environment is a
function `String → Option String`, the child-process / fetch interactions
are parameters describing their outcome, and `Map` objects are association
lists in insertion order with the `Map.set` overwrite semantics
(`mapSet`).  Exceptions are modelled with `Except String`.
-/

/-- JSON-like runtime values (JavaScript objects reachable from events and
configuration).  Objects are association lists of own enumerable data
properties in insertion order; numbers are modelled by `Int`. -/
inductive JVal where
  | null : JVal
  | bool (b : Bool) : JVal
  | num (n : Int) : JVal
  | str (s : String) : JVal
  | obj (fields : List (String × JVal)) : JVal
  | arr (elems : List JVal) : JVal

/-- `Array.prototype.join(sep)` over already-stringified elements. -/
def joinWith (sep : String) : List String → String
  | [] => ""
  | [s] => s
  | s :: rest => s ++ sep ++ joinWith sep rest

mutual

/-- JavaScript `String(value)` on a `JVal` (objects print as
`[object Object]`, arrays join their elements with `,`). -/
def jsString : JVal → String
  | JVal.null => "null"
  | JVal.bool true => "true"
  | JVal.bool false => "false"
  | JVal.num n => toString n
  | JVal.str s => s
  | JVal.obj _ => "[object Object]"
  | JVal.arr xs => joinWith "," (jsStringList xs)

/-- `Array.prototype.join` stringifies each element, printing `null` as the
empty string. -/
def jsStringList : List JVal → List String
  | [] => []
  | JVal.null :: rest => "" :: jsStringList rest
  | v :: rest => jsString v :: jsStringList rest

end

/-- `Map` association lists: `Map.set k v` overwrites in place when the key
exists, otherwise appends (JavaScript `Map` insertion-order semantics). -/
def mapSet {α : Type} (m : List (String × α)) (k : String) (v : α) : List (String × α) :=
  if m.any (fun p => p.1 == k) then m.map (fun p => if p.1 == k then (k, v) else p)
  else m ++ [(k, v)]

/-- `new Map(pairs)`: sets every pair in order. -/
def mkMap {α : Type} (pairs : List (String × α)) : List (String × α) :=
  pairs.foldl (fun m p => mapSet m p.1 p.2) []

/-- `Map.get` on the association-list model. -/
def mapGet {α : Type} (m : List (String × α)) (k : String) : Option α :=
  (m.find? (fun p => p.1 == k)).map (fun p => p.2)

/-- `hay` contains `needle` as a contiguous substring. -/
def containsStr (hay needle : String) : Prop :=
  ∃ pre post, hay.toList = pre ++ needle.toList ++ post

/-! ## Environment-variable resolution (agent-ctl source and OpenClaw target)

`function resolveEnvVar(value)` appears, with identical text, in
`src/unnamed/part_000` (lines 49–59) and
`src/connectors/openclaw/src/target.ts` (lines 14–24):

```
const match = value.match(/^\$\x7b(.+)\x7d$/);
if (match) {
  const envValue = process.env[match[1]];
  if (!envValue) throw new Error(`Environment variable ... is not set`);
  return envValue;
}
return value;
```
-/

/-- A character matched by `.` in a JavaScript regex without the `s` flag
(everything except the four line terminators). -/
def isDotChar (c : Char) : Bool :=
  c != '\n' && c != '\r' && c.val != 0x2028 && c.val != 0x2029

/-- The capture of `value.match(/^\$\x7b(.+)\x7d$/)`: the string must start
with `$\x7b`, end with `\x7d`, and the (greedy, hence maximal) group between
them must be non-empty and free of line terminators. -/
def extractVarName (s : String) : Option String :=
  match s.toList with
  | '$' :: '\x7b' :: rest =>
    if rest.getLast? == some '\x7d' && !rest.dropLast.isEmpty && rest.dropLast.all isDotChar
    then some (String.mk rest.dropLast) else none
  | _ => none

/-- `resolveEnvVar` from the sources: on a `${VAR}` reference it reads the
process environment (a falsy value — unset or empty — throws), any other
string passes through.  `env` is the explicit process environment. -/
def resolveEnvVar (env : String → Option String) (value : String) : Except String String :=
  match extractVarName value with
  | some name =>
    match env name with
    | some v =>
      if v = "" then Except.error ("Environment variable " ++ name ++ " is not set")
      else Except.ok v
    | none => Except.error ("Environment variable " ++ name ++ " is not set")
  | none => Except.ok value

/-! ## Agent-gate transform (`src/transforms/agent-gate/src/agent-gate.ts`) -/

/-- The session shape the gate cares about (`interface AgentSession` in
`agent-gate.ts`: `status`, `adapter`, plus ignored extra fields). -/
structure GateSession where
  status : String
  adapter : String
deriving DecidableEq

/-- The fields of `AgentGateTransform` set by `init`. -/
structure GateState where
  binaryPath : String
  adapterFilter : Option String
  activeStatuses : List String
  timeoutMs : Int
deriving DecidableEq

/-- `KNOWN_CONFIG_KEYS` (a `Set`, iterated in insertion order). -/
def KNOWN_CONFIG_KEYS : List String :=
  ["binary_path", "adapter_filter", "active_statuses", "timeout"]

/-- Property read on an opaque config object (`config.k`). -/
def getConfigVal (config : List (String × JVal)) (k : String) : Option JVal :=
  (config.find? (fun p => p.1 == k)).map (fun p => p.2)

/-- A string-valued config property (`undefined`/`null`/non-string reads as
absent; the TypeScript cast assumes well-typed values). -/
def getStr (config : List (String × JVal)) (k : String) : Option String :=
  match getConfigVal config k with
  | some (JVal.str s) => some s
  | _ => none

/-- A string-array-valued config property. -/
def asStrList : JVal → Option (List String)
  | JVal.arr xs =>
    xs.foldr (fun v acc =>
      match v, acc with
      | JVal.str s, some l => some (s :: l)
      | _, _ => none) (some [])
  | _ => none

/-- A string-array config property. -/
def getStrList (config : List (String × JVal)) (k : String) : Option (List String) :=
  (getConfigVal config k).bind asStrList

/-- A numeric config property. -/
def getNum (config : List (String × JVal)) (k : String) : Option Int :=
  match getConfigVal config k with
  | some (JVal.num n) => some n
  | _ => none

/-- `AgentGateTransform.init` (lines 70–84): reject unknown keys with a
message listing them, otherwise populate the state with `??` defaults. -/
def AgentGateTransform.init (config : List (String × JVal)) : Except String GateState :=
  let unknownKeys := (config.map (fun p => p.1)).filter (fun k => !KNOWN_CONFIG_KEYS.contains k)
  if unknownKeys.isEmpty then
    Except.ok
      { binaryPath := (getStr config "binary_path").getD "agent-ctl"
        adapterFilter := getStr config "adapter_filter"
        activeStatuses := (getStrList config "active_statuses").getD ["running"]
        timeoutMs := (getNum config "timeout").getD 5000 }
  else
    Except.error
      ("Agent-gate transform: unknown config keys: " ++ joinWith ", " unknownKeys
        ++ ". Valid keys are: " ++ joinWith ", " KNOWN_CONFIG_KEYS)

/-- The session filter predicate inside `execute` (lines 95–99):
`this.activeStatuses.includes(s.status) && (!this.adapterFilter ||
s.adapter === this.adapterFilter)`.  JavaScript `!this.adapterFilter` is
true both for `undefined` and for the empty string. -/
def gateSessionActive (st : GateState) (s : GateSession) : Bool :=
  st.activeStatuses.contains s.status &&
    (match st.adapterFilter with
     | none => true
     | some f => f == "" || s.adapter == f)

/-- `AgentGateTransform.execute` (lines 86–108).  `cliResult` is the outcome
of the injected `_execFn` call (`Except.error` models a thrown error). -/
def AgentGateTransform.execute {E : Type} (st : GateState)
    (cliResult : Except String (List GateSession)) (event : E) : Option E :=
  match cliResult with
  | Except.error _ => some event
  | Except.ok sessions =>
    let activeSessions := sessions.filter (gateSessionActive st)
    if activeSessions.length > 0 then none else some event

/-! ## OpenClaw target delivery (`src/connectors/openclaw/src/target.ts`) -/

/-- The status component of the SDK `DeliveryResult`. -/
inductive DeliveryStatus where
  | delivered : DeliveryStatus
  | rejected : DeliveryStatus
  | error : DeliveryStatus
deriving DecidableEq

/-- `DeliveryResult`: a status and an optional error message. -/
structure DeliveryResult where
  status : DeliveryStatus
  errMsg : Option String
deriving DecidableEq

/-- Outcome of the `fetch` call inside `deliver`: either a response (with
`status` and `statusText`) or a thrown error (network failure etc.). -/
inductive FetchOutcome where
  | resp (status : Nat) (statusText : String) : FetchOutcome
  | throws (msg : String) : FetchOutcome
deriving DecidableEq

/-- `OpenClawTarget.deliver` (lines 87–146), restricted to its
result-classification logic: building the request body (`buildMessage`,
`interpolateTemplate`) only shapes the outgoing request and cannot affect
the returned status, so the embedding takes the `fetch` outcome as a
parameter.  `response.ok` is status 200–299 per the fetch specification. -/
def OpenClawTarget.deliver (out : FetchOutcome) : DeliveryResult :=
  match out with
  | FetchOutcome.throws m => ⟨DeliveryStatus.error, some m⟩
  | FetchOutcome.resp st txt =>
    if 200 ≤ st ∧ st ≤ 299 then ⟨DeliveryStatus.delivered, none⟩
    else if st = 429 then ⟨DeliveryStatus.error, some "OpenClaw rate limited (429)"⟩
    else if 400 ≤ st ∧ st < 500 then
      ⟨DeliveryStatus.rejected, some ("OpenClaw rejected: " ++ toString st ++ " " ++ txt)⟩
    else ⟨DeliveryStatus.error, some ("OpenClaw error: " ++ toString st ++ " " ++ txt)⟩

/-! ## OpenClaw template interpolation (`target.ts` lines 30–57)

`resolvePath(obj, path)` walks `path.split('.')` through nested objects,
returning `undefined` (modelled `none`) as soon as the current value is
`null`/`undefined` or not of object type.  `interpolateTemplate` replaces
every `/\x7b\x7b([^\x7d]+)\x7d\x7d/g` match by the stringified resolved
value, or `"unknown"` when it resolves to `undefined` or `null`. -/

/-- Array property access `(arr as Record)[segment]`: canonical numeric
indices and `length` are the array's own properties. -/
def arrLookup (xs : List JVal) (seg : String) : Option JVal :=
  if seg = "length" then some (JVal.num xs.length)
  else
    match seg.toNat? with
    | some i => if toString i = seg ∧ i < xs.length then xs[i]? else none
    | none => none

/-- Object property access `(obj as Record)[segment]` (own data
properties). -/
def objLookup (fields : List (String × JVal)) (seg : String) : Option JVal :=
  (fields.find? (fun p => p.1 == seg)).map (fun p => p.2)

/-- The loop body of `resolvePath`: `none` is JavaScript `undefined`; both
`undefined` and `null` fail the `current == null` test, and primitives fail
`typeof current === 'object'`. -/
def resolvePathAux : Option JVal → List String → Option JVal
  | cur, [] => cur
  | cur, seg :: rest =>
    match cur with
    | none => none
    | some JVal.null => none
    | some (JVal.obj fields) => resolvePathAux (objLookup fields seg) rest
    | some (JVal.arr xs) => resolvePathAux (arrLookup xs seg) rest
    | some _ => none

/-- `String.prototype.split('.')`: split at every dot, keeping empty
segments (the empty string gives `[""]`). -/
def splitOnDotAux : List Char → List Char → List String
  | [], acc => [String.mk acc.reverse]
  | c :: rest, acc =>
    if c = '.' then String.mk acc.reverse :: splitOnDotAux rest []
    else splitOnDotAux rest (c :: acc)

/-- `path.split('.')`. -/
def splitDots (path : String) : List String :=
  splitOnDotAux path.toList []

/-- JavaScript WhiteSpace and LineTerminator characters (the set trimmed
by `String.prototype.trim`). -/
def isJsWhitespace (c : Char) : Bool :=
  c = ' ' || c = '\t' || c = '\n' || c = '\r' || c.val = 0x0b || c.val = 0x0c
    || c.val = 0xa0 || c.val = 0x1680 || (0x2000 ≤ c.val && c.val ≤ 0x200a)
    || c.val = 0x2028 || c.val = 0x2029 || c.val = 0x202f || c.val = 0x205f
    || c.val = 0x3000 || c.val = 0xfeff

/-- `String.prototype.trim()`: strip leading and trailing whitespace. -/
def jsTrim (s : String) : String :=
  String.mk (((s.toList.dropWhile isJsWhitespace).reverse.dropWhile
    isJsWhitespace).reverse)

/-- `resolvePath(obj, path)` — the loop over `path.split('.')`. -/
def resolvePath (v : JVal) (path : String) : Option JVal :=
  resolvePathAux (some v) (splitDots path)

/-- The replacement callback of `interpolateTemplate`: trim the captured
path, resolve it, map `undefined`/`null` to `"unknown"`, else
`String(value)`. -/
def renderPlaceholder (e : JVal) (rawPath : String) : String :=
  match resolvePath e (jsTrim rawPath) with
  | none => "unknown"
  | some JVal.null => "unknown"
  | some v => jsString v

/-- One attempt of the regex `\x7b\x7b([^\x7d]+)\x7d\x7d` directly after an
opening `\x7b\x7b`: the (greedy) `[^\x7d]+` group runs to the first `\x7d`,
which must be followed by a second `\x7d`. -/
def scanPlaceholder (rest : List Char) : Option (List Char × List Char) :=
  let seg := rest.takeWhile (fun c => c != '\x7d')
  if seg.isEmpty then none
  else
    match rest.dropWhile (fun c => c != '\x7d') with
    | '\x7d' :: '\x7d' :: rest' => some (seg, rest')
    | _ => none

theorem scanPlaceholder_length {rest seg rest' : List Char}
    (h : scanPlaceholder rest = some (seg, rest')) : rest'.length + 3 ≤ rest.length := by
  unfold scanPlaceholder at h
  by_cases hseg : (rest.takeWhile (fun c => c != '\x7d')).isEmpty
  · simp [hseg] at h
  · simp only [hseg, if_false, Bool.false_eq_true] at h
    rcases hdw : rest.dropWhile (fun c => c != '\x7d') with _ | ⟨c1, tl⟩
    · rw [hdw] at h; simp at h
    · rcases tl with _ | ⟨c2, tl2⟩
      · rw [hdw] at h
        by_cases h1 : c1 = '\x7d' <;> simp [h1] at h
      · rw [hdw] at h
        by_cases h1 : c1 = '\x7d'
        · by_cases h2 : c2 = '\x7d'
          · subst h1; subst h2
            simp only [Option.some.injEq, Prod.mk.injEq] at h
            have h0 : rest.takeWhile (fun c => c != '\x7d')
                ++ rest.dropWhile (fun c => c != '\x7d') = rest :=
              List.takeWhile_append_dropWhile (fun c => c != '\x7d') rest
            have hlen : rest.length =
                (rest.takeWhile (fun c => c != '\x7d')).length
                  + (rest.dropWhile (fun c => c != '\x7d')).length := by
              rw [← h0, List.length_append]
              simp [h0]
            have hpos : 0 < (rest.takeWhile (fun c => c != '\x7d')).length := by
              rcases h with ⟨hseg', hrest'⟩
              cases htk : rest.takeWhile (fun c => c != '\x7d') with
              | nil => rw [htk] at hseg; simp at hseg
              | cons a l => simp [htk]
            rcases h with ⟨hseg', hrest'⟩
            rw [hdw] at hlen
            subst hrest'
            simp only [List.length_cons] at hlen
            omega
          · simp [h1, h2] at h
        · simp [h1] at h

/-- The global-replace loop of `interpolateTemplate`: scan left to right;
on `\x7b\x7b` try to complete a placeholder (replacing it via `f`), else
advance one character, exactly as `String.prototype.replace` with a global
regex.  The `fuel` argument is only a structural-recursion bound (every
step strictly shortens the remaining input, so any `fuel ≥ l.length`
yields the same result — see `interpGo_fuel_irrel`); callers pass
`l.length`. -/
def interpGo (f : List Char → List Char) : Nat → List Char → List Char
  | _, [] => []
  | 0, l => l
  | fuel + 1, c :: rest =>
    if c = '\x7b' then
      match rest with
      | c2 :: rest2 =>
        if c2 = '\x7b' then
          match scanPlaceholder rest2 with
          | some (seg, rest') => f seg ++ interpGo f fuel rest'
          | none => c :: interpGo f fuel (c2 :: rest2)
        else c :: interpGo f fuel (c2 :: rest2)
      | [] => [c]
    else c :: interpGo f fuel rest

/-- `interpolateTemplate(template, event)` (lines 51–57). -/
def interpolateTemplate (template : String) (e : JVal) : String :=
  String.mk (interpGo (fun seg => (renderPlaceholder e (String.mk seg)).toList)
    template.toList.length template.toList)

/-- Whether a character list contains the two-character sequence
`\x7b\x7b` (i.e. whether the placeholder regex could ever fire). -/
def hasDoubleBrace : List Char → Bool
  | [] => false
  | [_] => false
  | c :: c2 :: rest => (c = '\x7b' && c2 = '\x7b') || hasDoubleBrace (c2 :: rest)

/-! ## Agent-ctl source connector (`src/unnamed/part_000`) -/

/-- Shape returned by `agent-ctl list --json` (`interface AgentSession`).
`status` is a plain string at runtime; `tokens` is the `(in, out)` pair. -/
structure AgentSession where
  id : String
  adapter : String
  status : String
  startedAt : String
  stoppedAt : Option String := none
  cwd : Option String := none
  spec : Option String := none
  model : Option String := none
  tokens : Option (Int × Int) := none
  cost : Option Int := none
  pid : Option Int := none
  meta : List (String × JVal) := []

/-- The `provenance` mapping built by `buildSessionEvent`. -/
structure Provenance where
  platform : String
  platform_event : String
  author : String
  author_type : String

/-- The `payload` mapping built by `buildSessionEvent`. -/
structure SessionPayload where
  action : String
  session_id : String
  adapter : String
  status : String
  started_at : String
  stopped_at : Option String
  cwd : Option String
  spec : Option String
  model : Option String
  tokens : Option (Int × Int)
  cost : Option Int
  pid : Option Int
  meta : List (String × JVal)

/-- Modelled from the spec: `buildEvent` comes from `@orgloop/sdk`, which is
not among the sources.  Per the spec's event data model it assembles an
event from the given `source`, `type`, `provenance` and `payload`; the `id`
and `timestamp` it also generates are not modelled, as no claim concerns
them. -/
structure BuiltEvent where
  source : String
  type : String
  provenance : Provenance
  payload : SessionPayload

/-- Modelled from the spec: event assembly by `@orgloop/sdk`'s
`buildEvent` (see `BuiltEvent`). -/
def buildEvent (source type_ : String) (provenance : Provenance)
    (payload : SessionPayload) : BuiltEvent :=
  ⟨source, type_, provenance, payload⟩

/-- `AgentCtlSource.buildSessionEvent` (lines 167–193): every session
lifecycle event is emitted with `type: 'resource.changed'`, the lifecycle
kind going to `provenance.platform_event` and `payload.action`. -/
def buildSessionEvent (sourceId eventType : String) (session : AgentSession) : BuiltEvent :=
  buildEvent sourceId "resource.changed"
    { platform := "agent-ctl"
      platform_event := eventType
      author := session.adapter
      author_type := "bot" }
    { action := eventType
      session_id := session.id
      adapter := session.adapter
      status := session.status
      started_at := session.startedAt
      stopped_at := session.stoppedAt
      cwd := session.cwd
      spec := session.spec
      model := session.model
      tokens := session.tokens
      cost := session.cost
      pid := session.pid
      meta := session.meta }

/-- The first loop body of `diffState` (lines 131–155): events for one
entry of the current state, against the previous state. -/
def diffEntryEvents (sourceId : String) (prev : List (String × AgentSession))
    (entry : String × AgentSession) : List BuiltEvent :=
  match mapGet prev entry.1 with
  | none =>
    if entry.2.status = "running" ∨ entry.2.status = "idle" then
      [buildSessionEvent sourceId "session.started" entry.2]
    else if entry.2.status = "stopped" then
      [buildSessionEvent sourceId "session.stopped" entry.2]
    else if entry.2.status = "error" then
      [buildSessionEvent sourceId "session.error" entry.2]
    else []
  | some prevS =>
    if prevS.status ≠ entry.2.status then
      if entry.2.status = "stopped" then
        [buildSessionEvent sourceId "session.stopped" entry.2]
      else if entry.2.status = "error" then
        [buildSessionEvent sourceId "session.error" entry.2]
      else if entry.2.status = "idle" ∧ prevS.status = "running" then
        [buildSessionEvent sourceId "session.idle" entry.2]
      else if entry.2.status = "running" ∧ prevS.status ≠ "running" then
        [buildSessionEvent sourceId "session.started" entry.2]
      else []
    else []

/-- The second loop body of `diffState` (lines 158–162): a previous session
absent from the current state is treated as stopped. -/
def disappearedEvents (sourceId : String) (cur : List (String × AgentSession))
    (entry : String × AgentSession) : List BuiltEvent :=
  if ¬ cur.any (fun p => p.1 == entry.1) ∧ entry.2.status ≠ "stopped" then
    [buildSessionEvent sourceId "session.stopped" { entry.2 with status := "stopped" }]
  else []

/-- `AgentCtlSource.diffState` (lines 127–165): iterate the current map in
insertion order, then the previous map for disappeared sessions. -/
def diffState (sourceId : String) (prev cur : List (String × AgentSession)) : List BuiltEvent :=
  (cur.flatMap (diffEntryEvents sourceId prev)) ++ (prev.flatMap (disappearedEvents sourceId cur))

/-- Outcome of the `execFn`/`JSON.parse` pipeline inside `listSessions`:
the CLI call throws, or it returns parsed JSON that is / is not an array. -/
inductive ExecOutcome where
  | throws : ExecOutcome
  | okNonArray : ExecOutcome
  | okArray (sessions : List AgentSession) : ExecOutcome

/-- `AgentCtlSource.listSessions` (lines 114–125): a thrown error is caught
and yields `[]` ("will retry next poll"); non-array JSON also yields `[]`. -/
def listSessions : ExecOutcome → List AgentSession
  | ExecOutcome.okArray sessions => sessions
  | _ => []

/-- The SDK `PollResult` as used by this source: events plus the new
checkpoint. -/
structure PollResult where
  events : List BuiltEvent
  checkpoint : Option String

/-- `AgentCtlSource.poll` (lines 97–108).  The in-memory `previousState`
map is passed in and the updated map returned; `now` is the value of
`new Date().toISOString()` at the call; the `checkpoint` argument is,
as in the source, ignored. -/
def AgentCtlSource.poll (sourceId : String) (prev : List (String × AgentSession))
    (out : ExecOutcome) (now : String) (checkpoint : Option String) :
    PollResult × List (String × AgentSession) :=
  let sessions := listSessions out
  let currentState := mkMap (sessions.map (fun s => (s.id, s)))
  let events := diffState sourceId prev currentState
  (⟨events, some now⟩, currentState)

/-! ## Connector resolution (`src/packages/cli/src/resolve-connectors.ts`) -/

/-- A source or actor declaration (`{id, connector}`). -/
structure ConnDecl where
  id : String
  connector : String
deriving DecidableEq

/-- The `sources`/`actors` sections of `OrgLoopConfig` that
`resolveConnectors` reads. -/
structure OLConfig where
  sources : List ConnDecl
  actors : List ConnDecl

/-- A `ConnectorRegistration`: the optional source / target classes are
identified by opaque tags (instantiating a class yields an instance carrying
its tag). -/
structure ConnectorRegistration where
  source : Option String
  target : Option String
deriving DecidableEq

/-- Outcome of `importFn(packageName)` followed by the `typeof mod.default`
check: the import throws, the default export is not a function, or it is a
registration function (already applied). -/
inductive ModOutcome where
  | importError (msg : String) : ModOutcome
  | defaultNotFn : ModOutcome
  | registration (reg : ConnectorRegistration) : ModOutcome
deriving DecidableEq

/-- Whether the import step fails for this module outcome. -/
def isBadImport : ModOutcome → Bool
  | ModOutcome.registration _ => false
  | _ => true

/-- JavaScript `Set` iteration order: first occurrences, in order
(accumulating left to right, skipping keys already seen). -/
def dedupList (l : List String) : List String :=
  l.foldl (fun acc s => if acc.contains s then acc else acc ++ [s]) []

/-- The unique connector package names referenced by the config (the
`allPackages` set, insertion order: sources first, then actors). -/
def referencedPackages (config : OLConfig) : List String :=
  dedupList (config.sources.map (fun s => s.connector) ++ config.actors.map (fun a => a.connector))

/-- The import loop of `resolveConnectors` (lines 48–70): import each
unique package, failing fast with the structured messages of the source. -/
def importPackages (importFn : String → ModOutcome) :
    List String → Except String (List (String × ConnectorRegistration))
  | [] => Except.ok []
  | p :: rest =>
    match importFn p with
    | ModOutcome.importError m =>
      Except.error ("Failed to import connector \"" ++ p ++ "\": " ++ m
        ++ "\n  Hint: run `npm install " ++ p ++ "` in your project directory.")
    | ModOutcome.defaultNotFn =>
      Except.error ("Connector \"" ++ p ++ "\" does not export a default registration function.")
    | ModOutcome.registration reg =>
      Except.map (fun l => (p, reg) :: l) (importPackages importFn rest)

/-- The source-instantiation loop (lines 73–85), accumulating the `sources`
map.  A connector absent from the package map is skipped (`if (!reg)
continue`). -/
def instantiateSources (pm : List (String × ConnectorRegistration)) :
    List ConnDecl → List (String × String) → Except String (List (String × String))
  | [], acc => Except.ok acc
  | d :: rest, acc =>
    match mapGet pm d.connector with
    | none => instantiateSources pm rest acc
    | some reg =>
      match reg.source with
      | none =>
        Except.error ("Connector \"" ++ d.connector ++ "\" does not provide a source, "
          ++ "but source \"" ++ d.id ++ "\" requires one.")
      | some cls => instantiateSources pm rest (mapSet acc d.id cls)

/-- The actor-instantiation loop (lines 88–100). -/
def instantiateActors (pm : List (String × ConnectorRegistration)) :
    List ConnDecl → List (String × String) → Except String (List (String × String))
  | [], acc => Except.ok acc
  | d :: rest, acc =>
    match mapGet pm d.connector with
    | none => instantiateActors pm rest acc
    | some reg =>
      match reg.target with
      | none =>
        Except.error ("Connector \"" ++ d.connector ++ "\" does not provide a target, "
          ++ "but actor \"" ++ d.id ++ "\" requires one.")
      | some cls => instantiateActors pm rest (mapSet acc d.id cls)

/-- `resolveConnectors` (lines 29–103): import all referenced packages,
then instantiate declared sources and actors. -/
def resolveConnectors (config : OLConfig) (importFn : String → ModOutcome) :
    Except String (List (String × String) × List (String × String)) :=
  match importPackages importFn (referencedPackages config) with
  | Except.error e => Except.error e
  | Except.ok pm =>
    match instantiateSources pm config.sources [] with
    | Except.error e => Except.error e
    | Except.ok sources =>
      match instantiateActors pm config.actors [] with
      | Except.error e => Except.error e
      | Except.ok actors => Except.ok (sources, actors)

/-! ## Dotenv loading (`src/packages/cli/src/dotenv.ts`) -/

/-- `process.env[k] = v` on the explicit environment. -/
def setEnv (env : String → Option String) (k v : String) : String → Option String :=
  fun x => if x = k then some v else env x

/-- The loading loop of `loadDotEnv` (lines 35–40): set only keys that are
currently undefined, recording them in order. -/
def loadVars (env : String → Option String) :
    List (String × String) → (String → Option String) × List String
  | [] => (env, [])
  | (k, v) :: rest =>
    if env k = none then
      let r := loadVars (setEnv env k v) rest
      (r.1, k :: r.2)
    else loadVars env rest

/-- `loadDotEnv` (lines 19–43).  `file` is the outcome of reading the
`.env` file (`none`: no file, "not an error"); `parseEnv` stands for
`parseEnvFile` from `./commands/env.js`, which is not among the sources, so
it is kept abstract — the claim holds for every parse. -/
def loadDotEnv (env : String → Option String) (file : Option String)
    (parseEnv : String → List (String × String)) : (String → Option String) × List String :=
  match file with
  | none => (env, [])
  | some content => loadVars env (parseEnv content)

/-! ## Helper lemmas -/

theorem toList_append (a b : String) : (a ++ b).toList = a.toList ++ b.toList := rfl

theorem mk_toList (s : String) : String.mk s.toList = s := rfl

theorem containsStr_joinWith {k : String} {l : List String} (sep : String) (h : k ∈ l) :
    ∃ pre post, (joinWith sep l).toList = pre ++ k.toList ++ post := by
  induction l with
  | nil => cases h
  | cons s rest ih =>
    cases rest with
    | nil =>
      have hk : k = s := List.mem_singleton.mp h
      subst hk
      exact ⟨[], [], by simp [joinWith]⟩
    | cons t rest2 =>
      rcases List.mem_cons.mp h with hk | hmem
      · subst hk
        exact ⟨[], (sep ++ joinWith sep (t :: rest2)).toList,
          by simp [joinWith, toList_append, List.append_assoc]⟩
      · obtain ⟨pre, post, hp⟩ := ih hmem
        refine ⟨(s ++ sep).toList ++ pre, post, ?_⟩
        have hp' : (joinWith sep (t :: rest2)).data = pre ++ (k.data ++ post) := by
          simpa [List.append_assoc] using hp
        simp [joinWith, toList_append, List.append_assoc, hp']

/-! ## Claim C1 — checkpoint behaviour of `AgentCtlSource.poll` on CLI failure -/

/-- Claim C1, counterexample: with a stored previous state and a poll whose
CLI call throws, `poll` does return a new (advanced) checkpoint — the
current timestamp — rather than keeping the stored one, refuting the claim
at this concrete input. -/
theorem C1_counterexample :
    (AgentCtlSource.poll "agent-ctl"
        [("s1", { id := "s1", adapter := "claude-code", status := "running",
                  startedAt := "2024-01-01T00:00:00.000Z" })]
        ExecOutcome.throws "2024-01-02T09:00:00.000Z"
        (some "2024-01-01T08:00:00.000Z")).1.checkpoint ≠ some "2024-01-01T08:00:00.000Z" ∧
    (AgentCtlSource.poll "agent-ctl"
        [("s1", { id := "s1", adapter := "claude-code", status := "running",
                  startedAt := "2024-01-01T00:00:00.000Z" })]
        ExecOutcome.throws "2024-01-02T09:00:00.000Z"
        (some "2024-01-01T08:00:00.000Z")).1.checkpoint = some "2024-01-02T09:00:00.000Z" := by
  constructor
  · decide
  · rfl

/-- Claim C1 (amended): a CLI failure during `poll` is swallowed inside
`listSessions` (the session list is treated as empty, to be retried next
poll), and `poll` still returns a fresh checkpoint — the current
timestamp — in its `PollResult`: the checkpoint is advanced regardless of
the failure, for every stored previous state. -/
theorem C1_poll_on_cli_failure (sourceId : String) (prev : List (String × AgentSession))
    (now : String) (checkpoint : Option String) :
    (AgentCtlSource.poll sourceId prev ExecOutcome.throws now checkpoint).1.checkpoint
        = some now ∧
    (AgentCtlSource.poll sourceId prev ExecOutcome.throws now checkpoint).1.events
        = diffState sourceId prev [] :=
  ⟨rfl, rfl⟩

/-! ## Claim C3 — the gate fails open on capability error -/

/-- Claim C3: if the injected exec function throws (modelled by
`Except.error`), `AgentGateTransform.execute` returns the input event — it
neither drops it nor propagates the error (the embedding is a total
function into `Option`). -/
theorem C3_gate_fails_open {E : Type} (st : GateState) (msg : String) (event : E) :
    AgentGateTransform.execute st (Except.error msg) event = some event := rfl

/-! ## Claim C4 — `OpenClawTarget.deliver` result classification -/

/-- Claim C4: `deliver` is total into the three-status `DeliveryResult`
(never throws), returning `delivered` on a 2xx response, `error` on 429, on
any status ≥ 500 and on a thrown fetch, and `rejected` on every other
status in [400, 500). -/
theorem C4_deliver_classification (out : FetchOutcome) :
    ((OpenClawTarget.deliver out).status = DeliveryStatus.delivered ∨
      (OpenClawTarget.deliver out).status = DeliveryStatus.rejected ∨
      (OpenClawTarget.deliver out).status = DeliveryStatus.error) ∧
    (∀ st txt, out = FetchOutcome.resp st txt → 200 ≤ st → st ≤ 299 →
      (OpenClawTarget.deliver out).status = DeliveryStatus.delivered) ∧
    (∀ st txt, out = FetchOutcome.resp st txt → (st = 429 ∨ 500 ≤ st) →
      (OpenClawTarget.deliver out).status = DeliveryStatus.error) ∧
    (∀ m, out = FetchOutcome.throws m →
      (OpenClawTarget.deliver out).status = DeliveryStatus.error) ∧
    (∀ st txt, out = FetchOutcome.resp st txt → 400 ≤ st → st < 500 → st ≠ 429 →
      (OpenClawTarget.deliver out).status = DeliveryStatus.rejected) := by
  refine ⟨?_, ?_, ?_, ?_, ?_⟩
  · cases out with
    | throws m => exact Or.inr (Or.inr rfl)
    | resp st txt =>
      simp only [OpenClawTarget.deliver]
      split_ifs <;> simp
  · intro st txt heq h1 h2
    subst heq
    simp only [OpenClawTarget.deliver]
    split_ifs with hA hB hC <;> first | rfl | omega
  · intro st txt heq h
    subst heq
    simp only [OpenClawTarget.deliver]
    split_ifs with hA hB hC <;> first | rfl | omega
  · intro m heq
    subst heq
    rfl
  · intro st txt heq h1 h2 h3
    subst heq
    simp only [OpenClawTarget.deliver]
    split_ifs with hA hB hC <;> first | rfl | omega

/-- Witness for C4 at concrete fetch outcomes: 204 is delivered, 429 and
503 and a thrown fetch are errors, 404 is rejected. -/
theorem C4_deliver_witness :
    (OpenClawTarget.deliver (FetchOutcome.resp 204 "No Content")).status
        = DeliveryStatus.delivered ∧
    (OpenClawTarget.deliver (FetchOutcome.resp 429 "Too Many Requests")).status
        = DeliveryStatus.error ∧
    (OpenClawTarget.deliver (FetchOutcome.resp 503 "Service Unavailable")).status
        = DeliveryStatus.error ∧
    (OpenClawTarget.deliver (FetchOutcome.throws "fetch failed")).status
        = DeliveryStatus.error ∧
    (OpenClawTarget.deliver (FetchOutcome.resp 404 "Not Found")).status
        = DeliveryStatus.rejected :=
  ⟨(C4_deliver_classification _).2.1 204 "No Content" rfl (by decide) (by decide),
   (C4_deliver_classification _).2.2.1 429 "Too Many Requests" rfl (Or.inl rfl),
   (C4_deliver_classification _).2.2.1 503 "Service Unavailable" rfl (Or.inr (by decide)),
   (C4_deliver_classification _).2.2.2.1 "fetch failed" rfl,
   (C4_deliver_classification _).2.2.2.2 404 "Not Found" rfl (by decide) (by decide) (by decide)⟩

/-! ## Claim C2 — when the gate drops an event -/

theorem gateSessionActive_iff (st : GateState) (s : GateSession) :
    gateSessionActive st s = true ↔
      (s.status ∈ st.activeStatuses ∧
        ∀ f, st.adapterFilter = some f → f ≠ "" → s.adapter = f) := by
  unfold gateSessionActive
  rw [Bool.and_eq_true]
  have hmem : st.activeStatuses.contains s.status = true ↔ s.status ∈ st.activeStatuses := by
    simp
  cases haf : st.adapterFilter with
  | none =>
    rw [hmem]
    constructor
    · rintro ⟨h1, _⟩
      exact ⟨h1, fun f hf => by simp at hf⟩
    · rintro ⟨h1, _⟩
      exact ⟨h1, rfl⟩
  | some f =>
    rw [hmem]
    constructor
    · rintro ⟨h1, h2⟩
      refine ⟨h1, ?_⟩
      rintro g hg hne
      injection hg with hg'
      subst hg'
      rcases Bool.or_eq_true_iff.mp h2 with hf | ha
      · exact absurd (beq_iff_eq.mp hf) hne
      · exact beq_iff_eq.mp ha
    · rintro ⟨h1, h2⟩
      refine ⟨h1, ?_⟩
      by_cases hf0 : f = ""
      · simp [hf0]
      · simp [h2 f rfl hf0]

theorem gate_execute_result_cases {E : Type} (st : GateState)
    (cliResult : Except String (List GateSession)) (event : E) :
    AgentGateTransform.execute st cliResult event = none ∨
      AgentGateTransform.execute st cliResult event = some event := by
  cases cliResult with
  | error m => exact Or.inr rfl
  | ok sessions =>
    simp only [AgentGateTransform.execute]
    split_ifs <;> simp

/-- Claim C2, counterexample: with `adapter_filter` configured as the empty
string (a known key with a string value), a running session whose adapter
does not equal that filter still closes the gate — `execute` returns `none`
although no session satisfies the claim's condition (status active and
adapter equal to the configured filter). -/
theorem C2_counterexample :
    AgentGateTransform.execute
        { binaryPath := "agent-ctl", adapterFilter := some "",
          activeStatuses := ["running"], timeoutMs := 5000 }
        (Except.ok [{ status := "running", adapter := "claude-code" }]) (0 : Nat) = none ∧
    ¬ ∃ s ∈ [({ status := "running", adapter := "claude-code" } : GateSession)],
        s.status ∈ (["running"] : List String) ∧
        ∀ f, (some "" : Option String) = some f → s.adapter = f := by
  constructor
  · rfl
  · rintro ⟨s, hs, _, hf⟩
    have hs' : s = { status := "running", adapter := "claude-code" } :=
      List.mem_singleton.mp hs
    subst hs'
    exact absurd (hf "" rfl) (by decide)

/-- Claim C2 (amended): for every event and every session list returned by
the CLI, `execute` returns `none` exactly when some session has a status in
the configured `active_statuses` and, whenever `adapter_filter` is
configured *and non-empty*, an adapter equal to that filter (an
empty-string `adapter_filter` is falsy in JavaScript and acts as if
absent); otherwise it returns the input event unchanged. -/
theorem C2_gate_execute {E : Type} (st : GateState) (sessions : List GateSession) (event : E) :
    (AgentGateTransform.execute st (Except.ok sessions) event = none ↔
      ∃ s ∈ sessions, s.status ∈ st.activeStatuses ∧
        ∀ f, st.adapterFilter = some f → f ≠ "" → s.adapter = f) ∧
    ((¬ ∃ s ∈ sessions, s.status ∈ st.activeStatuses ∧
        ∀ f, st.adapterFilter = some f → f ≠ "" → s.adapter = f) →
      AgentGateTransform.execute st (Except.ok sessions) event = some event) := by
  have hiff : AgentGateTransform.execute st (Except.ok sessions) event = none ↔
      ∃ s ∈ sessions, s.status ∈ st.activeStatuses ∧
        ∀ f, st.adapterFilter = some f → f ≠ "" → s.adapter = f := by
    simp only [AgentGateTransform.execute]
    constructor
    · intro h
      by_cases hl : 0 < (sessions.filter (gateSessionActive st)).length
      · rw [List.length_pos] at hl
        obtain ⟨s, hsmem⟩ := List.exists_mem_of_ne_nil _ hl
        have hm := List.mem_filter.mp hsmem
        exact ⟨s, hm.1, (gateSessionActive_iff st s).mp hm.2⟩
      · simp [hl] at h
    · rintro ⟨s, hs, hp⟩
      have hmem : s ∈ sessions.filter (gateSessionActive st) :=
        List.mem_filter.mpr ⟨hs, (gateSessionActive_iff st s).mpr hp⟩
      have hl : 0 < (sessions.filter (gateSessionActive st)).length := by
        rw [List.length_pos]
        intro he
        rw [he] at hmem
        cases hmem
      simp [hl]
  refine ⟨hiff, fun hneg => ?_⟩
  rcases gate_execute_result_cases st (Except.ok sessions) event with h | h
  · exact absurd (hiff.mp h) hneg
  · exact h

/-- Witness for C2 (amended), second part: with no sessions at all the
qualifying-session condition fails and the event passes through. -/
theorem C2_gate_witness :
    AgentGateTransform.execute
        { binaryPath := "agent-ctl", adapterFilter := none,
          activeStatuses := ["running"], timeoutMs := 5000 }
        (Except.ok []) (0 : Nat) = some 0 :=
  (C2_gate_execute _ [] 0).2 (by simp)

/-! ## Claim C5 — `${VAR}` environment-variable resolution -/

theorem extractVarName_wrap (name : String) (h1 : name ≠ "")
    (h2 : name.toList.all isDotChar = true) :
    extractVarName ("$\x7b" ++ name ++ "\x7d") = some name := by
  have hl : ("$\x7b" ++ name ++ "\x7d").toList
      = '$' :: '\x7b' :: (name.toList ++ ['\x7d']) := rfl
  have hne : ¬ name.toList.isEmpty := by
    intro he
    rw [List.isEmpty_iff] at he
    exact h1 (by cases name; simp_all [String.toList])
  unfold extractVarName
  rw [hl]
  simp only [List.dropLast_concat, List.getLast?_concat]
  simp [hne, h2]
  refine ⟨?_, ?_⟩
  · intro he
    exact hne (by simp [List.isEmpty_iff, String.toList, he])
  · intro x hx
    exact List.all_eq_true.mp h2 x hx

theorem extractVarName_some {s name : String} (h : extractVarName s = some name) :
    name ≠ "" ∧ name.toList.all isDotChar = true ∧ s = "$\x7b" ++ name ++ "\x7d" := by
  unfold extractVarName at h
  split at h
  case h_1 rest heq =>
    split at h
    case isTrue hc =>
      simp only [Option.some.injEq] at h
      subst h
      simp only [Bool.and_eq_true, beq_iff_eq, Bool.not_eq_true'] at hc
      obtain ⟨⟨hlast, hempty⟩, hall⟩ := hc
      have hrest : rest.dropLast ++ ['\x7d'] = rest :=
        List.dropLast_append_getLast? _ hlast
      have hnm : (String.mk rest.dropLast).toList = rest.dropLast := rfl
      refine ⟨?_, ?_, ?_⟩
      · intro he
        rw [he] at hnm
        rw [show ("" : String).toList = [] from rfl] at hnm
        rw [← hnm] at hempty
        simp at hempty
      · rw [hnm]
        exact hall
      · apply String.ext
        show s.data = ("$\x7b" ++ String.mk rest.dropLast ++ "\x7d").data
        have hdata : ("$\x7b" ++ String.mk rest.dropLast ++ "\x7d").data
            = '$' :: '\x7b' :: (rest.dropLast ++ ['\x7d']) := rfl
        rw [hdata, hrest]
        exact heq
    case isFalse hc => simp at h
  case h_2 => simp at h

/-- Claim C5: for a configuration string of the exact form `${VAR}` (`VAR`
a non-empty name without line terminators, as required by the source's
regex), `resolveEnvVar` — shared verbatim by the agent-ctl source
(`binary_path`) and the OpenClaw target (`auth_token_env`) — throws an
error message containing `VAR` when `VAR` is unset, returns the value when
`VAR` is set non-empty, and returns any string not of that form
unchanged. -/
theorem C5_resolveEnvVar :
    (∀ (env : String → Option String) (name : String), name ≠ "" →
      name.toList.all isDotChar = true → env name = none →
      resolveEnvVar env ("$\x7b" ++ name ++ "\x7d")
          = Except.error ("Environment variable " ++ name ++ " is not set") ∧
        containsStr ("Environment variable " ++ name ++ " is not set") name) ∧
    (∀ (env : String → Option String) (name v : String), name ≠ "" →
      name.toList.all isDotChar = true → env name = some v → v ≠ "" →
      resolveEnvVar env ("$\x7b" ++ name ++ "\x7d") = Except.ok v) ∧
    (∀ (env : String → Option String) (s : String),
      (∀ name : String, name ≠ "" → name.toList.all isDotChar = true →
        s ≠ "$\x7b" ++ name ++ "\x7d") →
      resolveEnvVar env s = Except.ok s) := by
  refine ⟨?_, ?_, ?_⟩
  · intro env name h1 h2 h3
    constructor
    · unfold resolveEnvVar
      simp only [extractVarName_wrap name h1 h2, h3]
    · exact ⟨"Environment variable ".toList, " is not set".toList, rfl⟩
  · intro env name v h1 h2 h3 h4
    unfold resolveEnvVar
    simp only [extractVarName_wrap name h1 h2, h3]
    simp [h4]
  · intro env s hno
    cases hx : extractVarName s with
    | none =>
      unfold resolveEnvVar
      rw [hx]
    | some name =>
      obtain ⟨h1, h2, h3⟩ := extractVarName_some hx
      exact absurd h3 (hno name h1 h2)

/-- Witness for C5: a set variable resolves, an unset one errors with the
name in the message, a plain string passes through. -/
theorem C5_witness :
    resolveEnvVar (fun v => if v = "HOME" then some "/root" else none)
        "$\x7bHOME\x7d" = Except.ok "/root" ∧
    (resolveEnvVar (fun _ => none) "$\x7bOPENCLAW_TOKEN\x7d"
        = Except.error "Environment variable OPENCLAW_TOKEN is not set" ∧
      containsStr "Environment variable OPENCLAW_TOKEN is not set" "OPENCLAW_TOKEN") ∧
    resolveEnvVar (fun _ => none) "agent-ctl" = Except.ok "agent-ctl" := by
  refine ⟨?_, ?_, ?_⟩
  · exact C5_resolveEnvVar.2.1 _ "HOME" "/root" (by decide) (by decide) (by decide) (by decide)
  · exact C5_resolveEnvVar.1 _ "OPENCLAW_TOKEN" (by decide) (by decide) rfl
  · refine C5_resolveEnvVar.2.2 _ "agent-ctl" ?_
    intro name h1 h2 heq
    have hx : extractVarName "agent-ctl" = none := by decide
    rw [heq, extractVarName_wrap name h1 h2] at hx
    cases hx

/-! ## Claim C7 — `AgentGateTransform.init` config validation -/

/-- Claim C7: `init` throws an error naming every offending key exactly
when the config contains a key outside `KNOWN_CONFIG_KEYS`; with only known
keys it succeeds, applying the defaults (`agent-ctl`, `['running']`,
`5000`) for each absent key. -/
theorem C7_gate_init (config : List (String × JVal)) :
    ((∀ k ∈ config.map (fun p => p.1), k ∈ KNOWN_CONFIG_KEYS) →
      ∃ st, AgentGateTransform.init config = Except.ok st ∧
        ("binary_path" ∉ config.map (fun p => p.1) → st.binaryPath = "agent-ctl") ∧
        ("active_statuses" ∉ config.map (fun p => p.1) → st.activeStatuses = ["running"]) ∧
        ("timeout" ∉ config.map (fun p => p.1) → st.timeoutMs = 5000)) ∧
    ((∃ k ∈ config.map (fun p => p.1), k ∉ KNOWN_CONFIG_KEYS) →
      ∃ msg, AgentGateTransform.init config = Except.error msg ∧
        ∀ k ∈ config.map (fun p => p.1), k ∉ KNOWN_CONFIG_KEYS → containsStr msg k) := by
  constructor
  · intro hall
    have hempty : (config.map (fun p => p.1)).filter
        (fun k => !KNOWN_CONFIG_KEYS.contains k) = [] := by
      rw [List.filter_eq_nil_iff]
      intro x hx
      simp [hall x hx]
    refine ⟨{ binaryPath := (getStr config "binary_path").getD "agent-ctl",
              adapterFilter := getStr config "adapter_filter",
              activeStatuses := (getStrList config "active_statuses").getD ["running"],
              timeoutMs := (getNum config "timeout").getD 5000 }, ?_, ?_, ?_, ?_⟩
    · simp [AgentGateTransform.init, hempty]
      intro x x1 hx
      exact hall x (List.mem_map.mpr ⟨(x, x1), hx, rfl⟩)
    · intro habs
      have hcv : getConfigVal config "binary_path" = none := by
        unfold getConfigVal
        rw [List.find?_eq_none.mpr]
        · rfl
        · intro p hp
          simp only [beq_iff_eq]
          intro he
          exact habs (List.mem_map.mpr ⟨p, hp, he⟩)
      simp [getStr, hcv]
    · intro habs
      have hcv : getConfigVal config "active_statuses" = none := by
        unfold getConfigVal
        rw [List.find?_eq_none.mpr]
        · rfl
        · intro p hp
          simp only [beq_iff_eq]
          intro he
          exact habs (List.mem_map.mpr ⟨p, hp, he⟩)
      simp [getStrList, hcv]
    · intro habs
      have hcv : getConfigVal config "timeout" = none := by
        unfold getConfigVal
        rw [List.find?_eq_none.mpr]
        · rfl
        · intro p hp
          simp only [beq_iff_eq]
          intro he
          exact habs (List.mem_map.mpr ⟨p, hp, he⟩)
      simp [getNum, hcv]
  · rintro ⟨k0, hk0mem, hk0not⟩
    have hk0filter : k0 ∈ (config.map (fun p => p.1)).filter
        (fun k => !KNOWN_CONFIG_KEYS.contains k) :=
      List.mem_filter.mpr ⟨hk0mem, by simp [hk0not]⟩
    have hne : ¬ ((config.map (fun p => p.1)).filter
        (fun k => !KNOWN_CONFIG_KEYS.contains k)).isEmpty := by
      rw [List.isEmpty_iff]
      intro he
      rw [he] at hk0filter
      cases hk0filter
    refine ⟨"Agent-gate transform: unknown config keys: "
        ++ joinWith ", " ((config.map (fun p => p.1)).filter
              (fun k => !KNOWN_CONFIG_KEYS.contains k))
        ++ ". Valid keys are: " ++ joinWith ", " KNOWN_CONFIG_KEYS, ?_, ?_⟩
    · simp [AgentGateTransform.init, hne]
      obtain ⟨p, hpmem, hpk⟩ := List.mem_map.mp hk0mem
      refine ⟨k0, ⟨p.2, ?_⟩, hk0not⟩
      rw [← hpk]
      simpa using hpmem
    · intro k hkmem hknot
      have hkfilter : k ∈ (config.map (fun p => p.1)).filter
          (fun kk => !KNOWN_CONFIG_KEYS.contains kk) :=
        List.mem_filter.mpr ⟨hkmem, by simp [hknot]⟩
      obtain ⟨pre, post, hp⟩ := containsStr_joinWith ", " hkfilter
      refine ⟨"Agent-gate transform: unknown config keys: ".toList ++ pre,
        post ++ ". Valid keys are: ".toList
          ++ (joinWith ", " KNOWN_CONFIG_KEYS).toList, ?_⟩
      have h0 : ("Agent-gate transform: unknown config keys: "
            ++ joinWith ", " ((config.map (fun p => p.1)).filter
                  (fun kk => !KNOWN_CONFIG_KEYS.contains kk))
            ++ ". Valid keys are: " ++ joinWith ", " KNOWN_CONFIG_KEYS).toList
          = (("Agent-gate transform: unknown config keys: ".toList
              ++ (joinWith ", " ((config.map (fun p => p.1)).filter
                    (fun kk => !KNOWN_CONFIG_KEYS.contains kk))).toList)
              ++ ". Valid keys are: ".toList)
              ++ (joinWith ", " KNOWN_CONFIG_KEYS).toList := rfl
      rw [h0, hp]
      simp only [List.append_assoc]

/-- Witness for C7: a config with the unknown key `bogus` is rejected with
the key named in the message, and the empty config gets all defaults. -/
theorem C7_witness :
    ((∀ k ∈ ([] : List (String × JVal)).map (fun p => p.1), k ∈ KNOWN_CONFIG_KEYS) ∧
      ∃ st, AgentGateTransform.init [] = Except.ok st ∧
        ("binary_path" ∉ ([] : List (String × JVal)).map (fun p => p.1) →
          st.binaryPath = "agent-ctl") ∧
        ("active_statuses" ∉ ([] : List (String × JVal)).map (fun p => p.1) →
          st.activeStatuses = ["running"]) ∧
        ("timeout" ∉ ([] : List (String × JVal)).map (fun p => p.1) →
          st.timeoutMs = 5000)) ∧
    ((∃ k ∈ [("bogus", JVal.num 1)].map (fun p => p.1), k ∉ KNOWN_CONFIG_KEYS) ∧
      ∃ msg, AgentGateTransform.init [("bogus", JVal.num 1)] = Except.error msg ∧
        ∀ k ∈ [("bogus", JVal.num 1)].map (fun p => p.1), k ∉ KNOWN_CONFIG_KEYS →
          containsStr msg k) :=
  ⟨⟨by simp, (C7_gate_init []).1 (by simp)⟩,
   ⟨by decide, (C7_gate_init [("bogus", JVal.num 1)]).2 (by decide)⟩⟩

/-! ## Claim C10 — `loadDotEnv` never overwrites the shell environment -/

theorem loadVars_preserve : ∀ (vars : List (String × String))
    (env : String → Option String) (k : String), env k ≠ none →
    (loadVars env vars).1 k = env k := by
  intro vars
  induction vars with
  | nil => intro env k _; rfl
  | cons p rest ih =>
    intro env k h
    obtain ⟨k', v'⟩ := p
    by_cases h0 : env k' = none
    · have hk : k ≠ k' := fun he => h (he ▸ h0)
      have h1 : setEnv env k' v' k = env k := by simp [setEnv, hk]
      simp only [loadVars, h0, if_true]
      rw [ih (setEnv env k' v') k (by rw [h1]; exact h), h1]
    · simp only [loadVars, h0, if_false]
      exact ih env k h

theorem loadVars_mem_iff : ∀ (vars : List (String × String))
    (env : String → Option String) (k : String),
    k ∈ (loadVars env vars).2 ↔ (loadVars env vars).1 k ≠ env k := by
  intro vars
  induction vars with
  | nil => intro env k; simp [loadVars]
  | cons p rest ih =>
    intro env k
    obtain ⟨k', v'⟩ := p
    by_cases h0 : env k' = none
    · simp only [loadVars, h0, if_true]
      by_cases hk : k = k'
      · subst hk
        have hset : setEnv env k v' k = some v' := by simp [setEnv]
        have hres : (loadVars (setEnv env k v') rest).1 k = some v' := by
          rw [loadVars_preserve rest (setEnv env k v') k (by rw [hset]; simp), hset]
        constructor
        · intro _
          rw [hres, h0]
          simp
        · intro _
          exact List.mem_cons_self _ _
      · have henv : setEnv env k' v' k = env k := by simp [setEnv, hk]
        rw [List.mem_cons]
        rw [ih (setEnv env k' v') k, henv]
        simp [hk]
    · simp only [loadVars, h0, if_false]
      exact ih env k

/-- Claim C10: `loadDotEnv` never overwrites an existing variable (the
shell environment wins), its returned list contains exactly the keys it
set (those whose value changed from undefined), and a missing `.env` file
leaves the environment unchanged and returns `[]` — for every file content
and every behaviour of the (abstract) `parseEnvFile`. -/
theorem C10_loadDotEnv (env : String → Option String)
    (parseEnv : String → List (String × String)) :
    (∀ content k, env k ≠ none →
      (loadDotEnv env (some content) parseEnv).1 k = env k) ∧
    (∀ content k, k ∈ (loadDotEnv env (some content) parseEnv).2 ↔
      (loadDotEnv env (some content) parseEnv).1 k ≠ env k) ∧
    loadDotEnv env none parseEnv = (env, []) :=
  ⟨fun content k h => loadVars_preserve (parseEnv content) env k h,
   fun content k => loadVars_mem_iff (parseEnv content) env k,
   rfl⟩

/-- Witness for C10: a variable already present in the shell environment
keeps its value after loading a `.env` that tries to override it. -/
theorem C10_witness :
    (loadDotEnv (fun x => if x = "PATH" then some "/bin" else none)
        (some "PATH=/override\nA=1") (fun _ => [("PATH", "/override"), ("A", "1")])).1 "PATH"
      = some "/bin" :=
  (C10_loadDotEnv _ _).1 "PATH=/override\nA=1" "PATH" (by decide)

/-! ## Claim C6 — every agent-ctl session event is `resource.changed` -/

theorem diffEntryEvents_shape {sourceId : String} {prev : List (String × AgentSession)}
    {entry : String × AgentSession} {e : BuiltEvent}
    (h : e ∈ diffEntryEvents sourceId prev entry) :
    ∃ t s, e = buildSessionEvent sourceId t s ∧
      t ∈ (["session.started", "session.stopped", "session.idle", "session.error"]
        : List String) := by
  unfold diffEntryEvents at h
  split at h <;>
    split_ifs at h <;>
      first
        | (rw [List.mem_singleton] at h; exact ⟨_, _, h, by simp⟩)
        | cases h

theorem disappearedEvents_shape {sourceId : String} {cur : List (String × AgentSession)}
    {entry : String × AgentSession} {e : BuiltEvent}
    (h : e ∈ disappearedEvents sourceId cur entry) :
    ∃ t s, e = buildSessionEvent sourceId t s ∧
      t ∈ (["session.started", "session.stopped", "session.idle", "session.error"]
        : List String) := by
  unfold disappearedEvents at h
  split_ifs at h
  · rw [List.mem_singleton] at h
    exact ⟨_, _, h, by simp⟩
  · cases h

/-- Claim C6: every event produced by `AgentCtlSource.poll` (through
`diffState` and `buildSessionEvent`, for all four lifecycle kinds) has
`type = 'resource.changed'` — one of the three enum event types — with the
lifecycle kind recorded in `provenance.platform_event` and equal
`payload.action`, and `provenance.platform = 'agent-ctl'`. -/
theorem C6_session_events (sourceId : String) (prev : List (String × AgentSession))
    (out : ExecOutcome) (now : String) (checkpoint : Option String) (e : BuiltEvent)
    (h : e ∈ (AgentCtlSource.poll sourceId prev out now checkpoint).1.events) :
    e.type = "resource.changed" ∧
    e.type ∈ (["resource.changed", "actor.stopped", "message.received"] : List String) ∧
    e.provenance.platform = "agent-ctl" ∧
    e.payload.action = e.provenance.platform_event ∧
    e.provenance.platform_event ∈
      (["session.started", "session.stopped", "session.idle", "session.error"]
        : List String) := by
  have hd : e ∈ diffState sourceId prev
      (mkMap ((listSessions out).map (fun s => (s.id, s)))) := h
  unfold diffState at hd
  rw [List.mem_append] at hd
  have hshape : ∃ t s, e = buildSessionEvent sourceId t s ∧
      t ∈ (["session.started", "session.stopped", "session.idle", "session.error"]
        : List String) := by
    rcases hd with hd | hd
    · rw [List.mem_flatMap] at hd
      obtain ⟨entry, _, he⟩ := hd
      exact diffEntryEvents_shape he
    · rw [List.mem_flatMap] at hd
      obtain ⟨entry, _, he⟩ := hd
      exact disappearedEvents_shape he
  obtain ⟨t, s, rfl, ht⟩ := hshape
  exact ⟨rfl, List.Mem.head _, rfl, rfl, ht⟩

/-- Witness for C6: a freshly appearing running session yields a
`session.started` lifecycle event carried as `resource.changed`. -/
theorem C6_witness :
    (buildSessionEvent "agent-ctl" "session.started"
        { id := "s1", adapter := "claude-code", status := "running",
          startedAt := "2024-01-01T00:00:00.000Z" }).type = "resource.changed" ∧
    (buildSessionEvent "agent-ctl" "session.started"
        { id := "s1", adapter := "claude-code", status := "running",
          startedAt := "2024-01-01T00:00:00.000Z" }).type
      ∈ (["resource.changed", "actor.stopped", "message.received"] : List String) ∧
    (buildSessionEvent "agent-ctl" "session.started"
        { id := "s1", adapter := "claude-code", status := "running",
          startedAt := "2024-01-01T00:00:00.000Z" }).provenance.platform = "agent-ctl" ∧
    (buildSessionEvent "agent-ctl" "session.started"
        { id := "s1", adapter := "claude-code", status := "running",
          startedAt := "2024-01-01T00:00:00.000Z" }).payload.action
      = (buildSessionEvent "agent-ctl" "session.started"
        { id := "s1", adapter := "claude-code", status := "running",
          startedAt := "2024-01-01T00:00:00.000Z" }).provenance.platform_event ∧
    (buildSessionEvent "agent-ctl" "session.started"
        { id := "s1", adapter := "claude-code", status := "running",
          startedAt := "2024-01-01T00:00:00.000Z" }).provenance.platform_event
      ∈ (["session.started", "session.stopped", "session.idle", "session.error"]
        : List String) :=
  C6_session_events "agent-ctl" []
    (ExecOutcome.okArray [{ id := "s1", adapter := "claude-code", status := "running",
                            startedAt := "2024-01-01T00:00:00.000Z" }])
    "2024-01-01T00:00:01.000Z" none _ (List.Mem.head _)

/-! ## Claim C8 — `resolveConnectors` -/

theorem dedupList_foldl_mem : ∀ (l acc : List String) (x : String),
    x ∈ l.foldl (fun a s => if a.contains s then a else a ++ [s]) acc ↔
      x ∈ acc ∨ x ∈ l := by
  intro l
  induction l with
  | nil => intro acc x; simp
  | cons s rest ih =>
    intro acc x
    rw [List.foldl_cons, ih]
    by_cases hc : acc.contains s
    · simp only [hc, if_true]
      constructor
      · rintro (h | h)
        · exact Or.inl h
        · exact Or.inr (List.mem_cons_of_mem _ h)
      · rintro (h | h)
        · exact Or.inl h
        · rcases List.mem_cons.mp h with he | h
          · subst he
            exact Or.inl (by simpa using hc)
          · exact Or.inr h
    · simp only [hc, if_false]
      constructor
      · rintro (h | h)
        · rcases List.mem_append.mp h with h | h
          · exact Or.inl h
          · exact Or.inr (List.mem_cons.mpr (Or.inl (List.mem_singleton.mp h)))
        · exact Or.inr (List.mem_cons_of_mem _ h)
      · rintro (h | h)
        · exact Or.inl (List.mem_append.mpr (Or.inl h))
        · rcases List.mem_cons.mp h with he | h
          · exact Or.inl (List.mem_append.mpr (Or.inr (by simp [he])))
          · exact Or.inr h

theorem mem_dedupList {l : List String} {x : String} : x ∈ dedupList l ↔ x ∈ l := by
  unfold dedupList
  rw [dedupList_foldl_mem]
  simp

theorem importPackages_error {f : String → ModOutcome} {ps : List String} {msg : String}
    (h : importPackages f ps = Except.error msg) :
    ∃ p ∈ ps, isBadImport (f p) = true ∧ containsStr msg p := by
  induction ps with
  | nil => simp [importPackages] at h
  | cons p rest ih =>
    unfold importPackages at h
    cases hf : f p with
    | importError m =>
      rw [hf] at h
      simp only [Except.error.injEq] at h
      refine ⟨p, List.mem_cons_self _ _, by simp [isBadImport, hf], ?_⟩
      rw [← h]
      exact ⟨"Failed to import connector \"".toList,
        ("\": " ++ m ++ "\n  Hint: run `npm install " ++ p
          ++ "` in your project directory.").toList,
        by simp [toList_append, List.append_assoc]⟩
    | defaultNotFn =>
      rw [hf] at h
      simp only [Except.error.injEq] at h
      refine ⟨p, List.mem_cons_self _ _, by simp [isBadImport, hf], ?_⟩
      rw [← h]
      exact ⟨"Connector \"".toList,
        "\" does not export a default registration function.".toList,
        by simp [toList_append, List.append_assoc]⟩
    | registration reg =>
      rw [hf] at h
      cases hr : importPackages f rest with
      | error m2 =>
        rw [hr] at h
        simp only [Except.map, Except.error.injEq] at h
        subst h
        obtain ⟨q, hq, hbad, hc⟩ := ih hr
        exact ⟨q, List.mem_cons_of_mem _ hq, hbad, hc⟩
      | ok l =>
        rw [hr] at h
        simp [Except.map] at h

theorem importPackages_ok {f : String → ModOutcome} {ps : List String}
    {pm : List (String × ConnectorRegistration)}
    (h : importPackages f ps = Except.ok pm) :
    pm.map (fun p => p.1) = ps ∧
      ∀ pr ∈ pm, f pr.1 = ModOutcome.registration pr.2 := by
  induction ps generalizing pm with
  | nil =>
    simp only [importPackages, Except.ok.injEq] at h
    subst h
    simp
  | cons p rest ih =>
    unfold importPackages at h
    cases hf : f p with
    | importError m => rw [hf] at h; simp at h
    | defaultNotFn => rw [hf] at h; simp at h
    | registration reg =>
      rw [hf] at h
      cases hr : importPackages f rest with
      | error m => rw [hr] at h; simp [Except.map] at h
      | ok l =>
        rw [hr] at h
        simp only [Except.map, Except.ok.injEq] at h
        obtain ⟨h1, h2⟩ := ih hr
        subst h
        constructor
        · simp [h1]
        · intro pr hpr
          rcases List.mem_cons.mp hpr with hpr | hpr
          · subst hpr; exact hf
          · exact h2 pr hpr

theorem mapGet_mem {α : Type} {m : List (String × α)} {k : String} {v : α}
    (h : mapGet m k = some v) : (k, v) ∈ m := by
  unfold mapGet at h
  cases hf : m.find? (fun p => p.1 == k) with
  | none => rw [hf] at h; cases h
  | some pr =>
    rw [hf] at h
    simp only [Option.map, Option.some.injEq] at h
    have hk : pr.1 = k := by
      have := List.find?_some hf
      simpa using this
    have hm := List.mem_of_find?_eq_some hf
    have : pr = (k, v) := by
      cases pr
      simp_all
    rw [← this]
    exact hm

theorem mapGet_isSome_of_mem_keys {α : Type} {m : List (String × α)} {k : String}
    (h : k ∈ m.map (fun p => p.1)) : ∃ v, mapGet m k = some v := by
  induction m with
  | nil => simp at h
  | cons p rest ih =>
    rw [List.map_cons, List.mem_cons] at h
    by_cases hk : p.1 = k
    · refine ⟨p.2, ?_⟩
      unfold mapGet
      rw [List.find?_cons_of_pos _ (by simp [hk])]
      rfl
    · rcases h with h | h
      · exact absurd h.symm hk
      · obtain ⟨v, hv⟩ := ih h
        refine ⟨v, ?_⟩
        unfold mapGet at hv ⊢
        rw [List.find?_cons_of_neg _ (by simp [hk])]
        exact hv

theorem mapSet_mem_keys {α : Type} (m : List (String × α)) (k : String) (v : α) :
    k ∈ (mapSet m k v).map (fun p => p.1) := by
  unfold mapSet
  split_ifs with h
  · rw [List.any_eq_true] at h
    obtain ⟨p, hp, hpk⟩ := h
    rw [List.mem_map]
    exact ⟨(k, v), List.mem_map.mpr ⟨p, hp, by simp [hpk]⟩, rfl⟩
  · simp

theorem mapSet_keys_mono {α : Type} {m : List (String × α)} {k' : String} (k : String) (v : α)
    (h : k' ∈ m.map (fun p => p.1)) : k' ∈ (mapSet m k v).map (fun p => p.1) := by
  unfold mapSet
  split_ifs with hany
  · rw [List.mem_map] at h ⊢
    obtain ⟨p, hp, hpk⟩ := h
    by_cases hk : (p.1 == k) = true
    · exact ⟨(k, v), List.mem_map.mpr ⟨p, hp, by simp [hk]⟩,
        by rw [← hpk]; exact (beq_iff_eq.mp hk).symm⟩
    · exact ⟨p, List.mem_map.mpr ⟨p, hp, by simp [hk]⟩, hpk⟩
  · rw [List.map_append, List.mem_append]
    exact Or.inl h

theorem instantiateSources_error {pm : List (String × ConnectorRegistration)}
    {decls : List ConnDecl} :
    ∀ {acc : List (String × String)} {msg : String},
    instantiateSources pm decls acc = Except.error msg →
    ∃ d ∈ decls, ∃ reg, mapGet pm d.connector = some reg ∧ reg.source = none ∧
      containsStr msg d.connector := by
  induction decls with
  | nil => intro acc msg h; simp [instantiateSources] at h
  | cons d rest ih =>
    intro acc msg h
    unfold instantiateSources at h
    cases hg : mapGet pm d.connector with
    | none =>
      rw [hg] at h
      obtain ⟨d', hd', hrest⟩ := ih h
      exact ⟨d', List.mem_cons_of_mem _ hd', hrest⟩
    | some reg =>
      rw [hg] at h
      cases hs : reg.source with
      | none =>
        simp only [hs, Except.error.injEq] at h
        refine ⟨d, List.mem_cons_self _ _, reg, hg, hs, ?_⟩
        rw [← h]
        exact ⟨"Connector \"".toList,
          ("\" does not provide a source, " ++ "but source \"" ++ d.id
            ++ "\" requires one.").toList,
          by simp [toList_append, List.append_assoc]⟩
      | some cls =>
        simp only [hs] at h
        obtain ⟨d', hd', hrest⟩ := ih h
        exact ⟨d', List.mem_cons_of_mem _ hd', hrest⟩

theorem instantiateSources_forces_error {pm : List (String × ConnectorRegistration)}
    {decls : List ConnDecl} {d : ConnDecl} (hd : d ∈ decls)
    {reg : ConnectorRegistration} (hg : mapGet pm d.connector = some reg)
    (hs : reg.source = none) :
    ∀ acc, ∃ msg, instantiateSources pm decls acc = Except.error msg := by
  induction hd with
  | head rest =>
    intro acc
    unfold instantiateSources
    rw [hg]
    simp only [hs]
    exact ⟨_, rfl⟩
  | tail b hmem ih =>
    intro acc
    unfold instantiateSources
    cases hg0 : mapGet pm b.connector with
    | none => exact ih acc
    | some reg0 =>
      cases hs0 : reg0.source with
      | none =>
        simp only [hs0]
        exact ⟨_, rfl⟩
      | some cls =>
        simp only [hs0]
        exact ih (mapSet acc b.id cls)

theorem instantiateSources_ok_keys {pm : List (String × ConnectorRegistration)}
    {decls : List ConnDecl} :
    ∀ {acc res : List (String × String)},
    instantiateSources pm decls acc = Except.ok res →
    (∀ k ∈ acc.map (fun p => p.1), k ∈ res.map (fun p => p.1)) ∧
    (∀ d ∈ decls, (∃ reg, mapGet pm d.connector = some reg) →
      d.id ∈ res.map (fun p => p.1)) := by
  induction decls with
  | nil =>
    intro acc res h
    simp only [instantiateSources, Except.ok.injEq] at h
    subst h
    exact ⟨fun k hk => hk, by simp⟩
  | cons d rest ih =>
    intro acc res h
    unfold instantiateSources at h
    cases hg : mapGet pm d.connector with
    | none =>
      rw [hg] at h
      obtain ⟨hmono, hdecl⟩ := ih h
      refine ⟨hmono, ?_⟩
      intro d' hd' hreg
      rcases List.mem_cons.mp hd' with he | hmem
      · obtain ⟨reg, hr⟩ := hreg
        rw [he, hg] at hr
        cases hr
      · exact hdecl d' hmem hreg
    | some reg =>
      rw [hg] at h
      cases hs : reg.source with
      | none =>
        simp only [hs] at h
        cases h
      | some cls =>
        simp only [hs] at h
        obtain ⟨hmono, hdecl⟩ := ih h
        refine ⟨fun k hk => hmono k (mapSet_keys_mono d.id cls hk), ?_⟩
        intro d' hd' hreg
        rcases List.mem_cons.mp hd' with he | hmem
        · rw [he]
          exact hmono d.id (mapSet_mem_keys acc d.id cls)
        · exact hdecl d' hmem hreg

theorem instantiateActors_error {pm : List (String × ConnectorRegistration)}
    {decls : List ConnDecl} :
    ∀ {acc : List (String × String)} {msg : String},
    instantiateActors pm decls acc = Except.error msg →
    ∃ d ∈ decls, ∃ reg, mapGet pm d.connector = some reg ∧ reg.target = none ∧
      containsStr msg d.connector := by
  induction decls with
  | nil => intro acc msg h; simp [instantiateActors] at h
  | cons d rest ih =>
    intro acc msg h
    unfold instantiateActors at h
    cases hg : mapGet pm d.connector with
    | none =>
      rw [hg] at h
      obtain ⟨d', hd', hrest⟩ := ih h
      exact ⟨d', List.mem_cons_of_mem _ hd', hrest⟩
    | some reg =>
      rw [hg] at h
      cases hs : reg.target with
      | none =>
        simp only [hs, Except.error.injEq] at h
        refine ⟨d, List.mem_cons_self _ _, reg, hg, hs, ?_⟩
        rw [← h]
        exact ⟨"Connector \"".toList,
          ("\" does not provide a target, " ++ "but actor \"" ++ d.id
            ++ "\" requires one.").toList,
          by simp [toList_append, List.append_assoc]⟩
      | some cls =>
        simp only [hs] at h
        obtain ⟨d', hd', hrest⟩ := ih h
        exact ⟨d', List.mem_cons_of_mem _ hd', hrest⟩

theorem instantiateActors_forces_error {pm : List (String × ConnectorRegistration)}
    {decls : List ConnDecl} {d : ConnDecl} (hd : d ∈ decls)
    {reg : ConnectorRegistration} (hg : mapGet pm d.connector = some reg)
    (hs : reg.target = none) :
    ∀ acc, ∃ msg, instantiateActors pm decls acc = Except.error msg := by
  induction hd with
  | head rest =>
    intro acc
    unfold instantiateActors
    rw [hg]
    simp only [hs]
    exact ⟨_, rfl⟩
  | tail b hmem ih =>
    intro acc
    unfold instantiateActors
    cases hg0 : mapGet pm b.connector with
    | none => exact ih acc
    | some reg0 =>
      cases hs0 : reg0.target with
      | none =>
        simp only [hs0]
        exact ⟨_, rfl⟩
      | some cls =>
        simp only [hs0]
        exact ih (mapSet acc b.id cls)

theorem instantiateActors_ok_keys {pm : List (String × ConnectorRegistration)}
    {decls : List ConnDecl} :
    ∀ {acc res : List (String × String)},
    instantiateActors pm decls acc = Except.ok res →
    (∀ k ∈ acc.map (fun p => p.1), k ∈ res.map (fun p => p.1)) ∧
    (∀ d ∈ decls, (∃ reg, mapGet pm d.connector = some reg) →
      d.id ∈ res.map (fun p => p.1)) := by
  induction decls with
  | nil =>
    intro acc res h
    simp only [instantiateActors, Except.ok.injEq] at h
    subst h
    exact ⟨fun k hk => hk, by simp⟩
  | cons d rest ih =>
    intro acc res h
    unfold instantiateActors at h
    cases hg : mapGet pm d.connector with
    | none =>
      rw [hg] at h
      obtain ⟨hmono, hdecl⟩ := ih h
      refine ⟨hmono, ?_⟩
      intro d' hd' hreg
      rcases List.mem_cons.mp hd' with he | hmem
      · obtain ⟨reg, hr⟩ := hreg
        rw [he, hg] at hr
        cases hr
      · exact hdecl d' hmem hreg
    | some reg =>
      rw [hg] at h
      cases hs : reg.target with
      | none =>
        simp only [hs] at h
        cases h
      | some cls =>
        simp only [hs] at h
        obtain ⟨hmono, hdecl⟩ := ih h
        refine ⟨fun k hk => hmono k (mapSet_keys_mono d.id cls hk), ?_⟩
        intro d' hd' hreg
        rcases List.mem_cons.mp hd' with he | hmem
        · rw [he]
          exact hmono d.id (mapSet_mem_keys acc d.id cls)
        · exact hdecl d' hmem hreg

/-- Claim C8: `resolveConnectors` throws a structured error naming an
offending package whenever some referenced package fails to import, has a
non-function default export, or lacks the source / target class that a
declared source / actor needs; and when it returns, the sources map has an
entry for every declared source id and the actors map for every declared
actor id. -/
theorem C8_resolveConnectors (config : OLConfig) (importFn : String → ModOutcome) :
    ((∃ p, p ∈ referencedPackages config ∧
        (isBadImport (importFn p) = true ∨
          ∃ reg, importFn p = ModOutcome.registration reg ∧
            ((reg.source = none ∧ ∃ d ∈ config.sources, d.connector = p) ∨
             (reg.target = none ∧ ∃ d ∈ config.actors, d.connector = p)))) →
      ∃ msg q, resolveConnectors config importFn = Except.error msg ∧
        (q ∈ referencedPackages config ∧
          (isBadImport (importFn q) = true ∨
            ∃ reg, importFn q = ModOutcome.registration reg ∧
              ((reg.source = none ∧ ∃ d ∈ config.sources, d.connector = q) ∨
               (reg.target = none ∧ ∃ d ∈ config.actors, d.connector = q)))) ∧
        containsStr msg q) ∧
    (∀ res, resolveConnectors config importFn = Except.ok res →
      (∀ d ∈ config.sources, d.id ∈ res.1.map (fun p => p.1)) ∧
      (∀ d ∈ config.actors, d.id ∈ res.2.map (fun p => p.1))) := by
  constructor
  · intro hoff
    rcases hip : importPackages importFn (referencedPackages config) with msg | pm
    · obtain ⟨p, hp, hbad, hc⟩ := importPackages_error hip
      refine ⟨msg, p, ?_, ⟨hp, Or.inl hbad⟩, hc⟩
      unfold resolveConnectors
      rw [hip]
    · obtain ⟨hkeys, hregs⟩ := importPackages_ok hip
      rcases his : instantiateSources pm config.sources [] with msg | srcs
      · obtain ⟨d, hd, reg, hgd, hsd, hc⟩ := instantiateSources_error his
        have hpm := mapGet_mem hgd
        have hreg := hregs _ hpm
        refine ⟨msg, d.connector, ?_, ⟨?_, Or.inr ⟨reg, hreg, Or.inl ⟨hsd, d, hd, rfl⟩⟩⟩, hc⟩
        · unfold resolveConnectors
          rw [hip]
          simp only [his]
        · unfold referencedPackages
          rw [mem_dedupList, List.mem_append]
          exact Or.inl (List.mem_map.mpr ⟨d, hd, rfl⟩)
      · rcases hia : instantiateActors pm config.actors [] with msg | acts
        · obtain ⟨d, hd, reg, hgd, hsd, hc⟩ := instantiateActors_error hia
          have hpm := mapGet_mem hgd
          have hreg := hregs _ hpm
          refine ⟨msg, d.connector, ?_,
            ⟨?_, Or.inr ⟨reg, hreg, Or.inr ⟨hsd, d, hd, rfl⟩⟩⟩, hc⟩
          · unfold resolveConnectors
            rw [hip]
            simp only [his, hia]
          · unfold referencedPackages
            rw [mem_dedupList, List.mem_append]
            exact Or.inr (List.mem_map.mpr ⟨d, hd, rfl⟩)
        · exfalso
          obtain ⟨p, hpref, hbadOr⟩ := hoff
          have hpk : p ∈ pm.map (fun pr => pr.1) := by rw [hkeys]; exact hpref
          obtain ⟨v, hv⟩ := mapGet_isSome_of_mem_keys hpk
          have hvreg := hregs _ (mapGet_mem hv)
          rcases hbadOr with hbad | ⟨reg, hregp, hmiss⟩
          · rw [hvreg] at hbad
            simp [isBadImport] at hbad
          · rw [hregp] at hvreg
            injection hvreg with he
            subst he
            rcases hmiss with ⟨hsrc, d, hd, hdc⟩ | ⟨htgt, d, hd, hdc⟩
            · rw [← hdc] at hv
              obtain ⟨msg, hmsg⟩ := instantiateSources_forces_error hd hv hsrc []
              rw [hmsg] at his
              cases his
            · rw [← hdc] at hv
              obtain ⟨msg, hmsg⟩ := instantiateActors_forces_error hd hv htgt []
              rw [hmsg] at hia
              cases hia
  · intro res hres
    unfold resolveConnectors at hres
    split at hres
    · cases hres
    · next pm hip =>
      split at hres
      · cases hres
      · next srcs his =>
        split at hres
        · cases hres
        · next acts hia =>
          simp only [Except.ok.injEq] at hres
          subst hres
          obtain ⟨hkeys, hregs⟩ := importPackages_ok hip
          constructor
          · intro d hd
            have hpk : d.connector ∈ pm.map (fun pr => pr.1) := by
              rw [hkeys]
              unfold referencedPackages
              rw [mem_dedupList, List.mem_append]
              exact Or.inl (List.mem_map.mpr ⟨d, hd, rfl⟩)
            exact (instantiateSources_ok_keys his).2 d hd
              (mapGet_isSome_of_mem_keys hpk)
          · intro d hd
            have hpk : d.connector ∈ pm.map (fun pr => pr.1) := by
              rw [hkeys]
              unfold referencedPackages
              rw [mem_dedupList, List.mem_append]
              exact Or.inr (List.mem_map.mpr ⟨d, hd, rfl⟩)
            exact (instantiateActors_ok_keys hia).2 d hd
              (mapGet_isSome_of_mem_keys hpk)

/-- Witness for C8, success side: with one source and one actor whose
packages import fine, both maps are fully populated. -/
theorem C8_witness :
    (∀ d ∈ (OLConfig.mk [ConnDecl.mk "gh" "@orgloop/connector-github"]
        [ConnDecl.mk "oc" "@orgloop/connector-openclaw"]).sources,
      d.id ∈ (([("gh", "GitHubSource")], [("oc", "OpenClawTarget")])
        : List (String × String) × List (String × String)).1.map (fun p => p.1)) ∧
    (∀ d ∈ (OLConfig.mk [ConnDecl.mk "gh" "@orgloop/connector-github"]
        [ConnDecl.mk "oc" "@orgloop/connector-openclaw"]).actors,
      d.id ∈ (([("gh", "GitHubSource")], [("oc", "OpenClawTarget")])
        : List (String × String) × List (String × String)).2.map (fun p => p.1)) :=
  (C8_resolveConnectors
      (OLConfig.mk [ConnDecl.mk "gh" "@orgloop/connector-github"]
        [ConnDecl.mk "oc" "@orgloop/connector-openclaw"])
      (fun p => if p = "@orgloop/connector-github"
        then ModOutcome.registration ⟨some "GitHubSource", none⟩
        else ModOutcome.registration ⟨none, some "OpenClawTarget"⟩)).2
    ([("gh", "GitHubSource")], [("oc", "OpenClawTarget")]) rfl

/-! ## Claim C9 — `interpolateTemplate` -/

theorem takeWhile_all_append {p : Char → Bool} {l : List Char} (l2 : List Char)
    (h : ∀ x ∈ l, p x = true) : (l ++ l2).takeWhile p = l ++ l2.takeWhile p := by
  induction l with
  | nil => simp
  | cons x xs ih =>
    simp only [List.cons_append, List.takeWhile_cons]
    rw [h x (List.mem_cons_self _ _)]
    simp only [if_true]
    rw [ih (fun y hy => h y (List.mem_cons_of_mem _ hy))]

theorem dropWhile_all_append {p : Char → Bool} {l : List Char} (l2 : List Char)
    (h : ∀ x ∈ l, p x = true) : (l ++ l2).dropWhile p = l2.dropWhile p := by
  induction l with
  | nil => simp
  | cons x xs ih =>
    simp only [List.cons_append, List.dropWhile_cons]
    rw [h x (List.mem_cons_self _ _)]
    simp only [if_true]
    exact ih (fun y hy => h y (List.mem_cons_of_mem _ hy))

theorem scanPlaceholder_complete (seg post : List Char) (h1 : seg ≠ [])
    (h2 : ∀ c ∈ seg, c ≠ '\x7d') :
    scanPlaceholder (seg ++ '\x7d' :: '\x7d' :: post) = some (seg, post) := by
  have hp : ∀ x ∈ seg, (x != '\x7d') = true := by
    intro x hx
    simpa using h2 x hx
  unfold scanPlaceholder
  rw [takeWhile_all_append _ hp, dropWhile_all_append _ hp]
  simp [h1]

theorem interpGo_nil (f : List Char → List Char) (fuel : Nat) : interpGo f fuel [] = [] := by
  cases fuel <;> rfl

theorem interpGo_cons_ne (f : List Char → List Char) (fuel : Nat) {c : Char}
    (rest : List Char) (hc : c ≠ '\x7b') :
    interpGo f (fuel + 1) (c :: rest) = c :: interpGo f fuel rest := by
  simp [interpGo, hc]

theorem interpGo_brace_nil (f : List Char → List Char) (fuel : Nat) :
    interpGo f (fuel + 1) ['\x7b'] = ['\x7b'] := by
  simp [interpGo]

theorem interpGo_brace_cons_ne (f : List Char → List Char) (fuel : Nat) {c2 : Char}
    (rest2 : List Char) (hc2 : c2 ≠ '\x7b') :
    interpGo f (fuel + 1) ('\x7b' :: c2 :: rest2)
      = '\x7b' :: interpGo f fuel (c2 :: rest2) := by
  simp [interpGo, hc2]

theorem interpGo_brace_brace_some (f : List Char → List Char) (fuel : Nat)
    {rest2 seg rest' : List Char} (h : scanPlaceholder rest2 = some (seg, rest')) :
    interpGo f (fuel + 1) ('\x7b' :: '\x7b' :: rest2)
      = f seg ++ interpGo f fuel rest' := by
  simp [interpGo, h]

theorem interpGo_brace_brace_none (f : List Char → List Char) (fuel : Nat)
    {rest2 : List Char} (h : scanPlaceholder rest2 = none) :
    interpGo f (fuel + 1) ('\x7b' :: '\x7b' :: rest2)
      = '\x7b' :: interpGo f fuel ('\x7b' :: rest2) := by
  simp [interpGo, h]

theorem interpGo_fuel_irrel (f : List Char → List Char) :
    ∀ (fuel1 : Nat) (l : List Char) (fuel2 : Nat),
    l.length ≤ fuel1 → l.length ≤ fuel2 → interpGo f fuel1 l = interpGo f fuel2 l := by
  intro fuel1
  induction fuel1 with
  | zero =>
    intro l fuel2 h1 _
    have hl : l = [] := List.eq_nil_of_length_eq_zero (Nat.le_zero.mp h1)
    subst hl
    rw [interpGo_nil, interpGo_nil]
  | succ fu ih =>
    intro l fuel2 h1 h2
    cases l with
    | nil => rw [interpGo_nil, interpGo_nil]
    | cons c rest =>
      cases fuel2 with
      | zero => simp at h2
      | succ fu2 =>
        by_cases hc : c = '\x7b'
        · subst hc
          cases rest with
          | nil => rw [interpGo_brace_nil, interpGo_brace_nil]
          | cons c2 rest2 =>
            by_cases hc2 : c2 = '\x7b'
            · subst hc2
              cases hsp : scanPlaceholder rest2 with
              | some pr =>
                obtain ⟨seg, rest'⟩ := pr
                rw [interpGo_brace_brace_some f fu hsp,
                  interpGo_brace_brace_some f fu2 hsp]
                have hl := scanPlaceholder_length hsp
                simp only [List.length_cons] at h1 h2
                rw [ih rest' fu2 (by omega) (by omega)]
              | none =>
                rw [interpGo_brace_brace_none f fu hsp,
                  interpGo_brace_brace_none f fu2 hsp]
                simp only [List.length_cons] at h1 h2
                rw [ih ('\x7b' :: rest2) fu2 (by simp; omega) (by simp; omega)]
            · rw [interpGo_brace_cons_ne f fu _ hc2, interpGo_brace_cons_ne f fu2 _ hc2]
              simp only [List.length_cons] at h1 h2
              rw [ih (c2 :: rest2) fu2 (by simp; omega) (by simp; omega)]
        · rw [interpGo_cons_ne f fu _ hc, interpGo_cons_ne f fu2 _ hc]
          simp only [List.length_cons] at h1 h2
          rw [ih rest fu2 (by omega) (by omega)]

theorem interpGo_no_double (f : List Char → List Char) :
    ∀ (l : List Char) (fuel : Nat), hasDoubleBrace l = false → l.length ≤ fuel →
    interpGo f fuel l = l := by
  intro l
  induction l with
  | nil => intro fuel _ _; rw [interpGo_nil]
  | cons c rest ih =>
    intro fuel h hlen
    cases fuel with
    | zero => simp at hlen
    | succ fu =>
      cases rest with
      | nil =>
        by_cases hc : c = '\x7b'
        · subst hc
          exact interpGo_brace_nil f fu
        · rw [interpGo_cons_ne f fu _ hc, interpGo_nil]
      | cons c2 rest2 =>
        have h' : ((c = '\x7b' && c2 = '\x7b') || hasDoubleBrace (c2 :: rest2)) = false := h
        have hA : (decide (c = '\x7b') && decide (c2 = '\x7b')) = false := by
          cases hcc : (decide (c = '\x7b') && decide (c2 = '\x7b'))
          · rfl
          · rw [hcc] at h'
            simp at h'
        have hB : hasDoubleBrace (c2 :: rest2) = false := by
          cases hbb : hasDoubleBrace (c2 :: rest2)
          · rfl
          · rw [hbb] at h'
            simp at h'
        simp only [List.length_cons] at hlen
        by_cases hc : c = '\x7b'
        · have hc2 : c2 ≠ '\x7b' := by
            subst hc
            simp at hA
            exact hA
          subst hc
          rw [interpGo_brace_cons_ne f fu _ hc2]
          rw [ih fu hB (by simp; omega)]
        · rw [interpGo_cons_ne f fu _ hc]
          rw [ih fu hB (by simp; omega)]

theorem interpGo_decompose (f : List Char → List Char) (seg post : List Char)
    (h3 : seg ≠ []) (h4 : ∀ c ∈ seg, c ≠ '\x7d') :
    ∀ (pre : List Char) (fuel : Nat), hasDoubleBrace pre = false →
    pre.getLast? ≠ some '\x7b' →
    (pre ++ '\x7b' :: '\x7b' :: (seg ++ '\x7d' :: '\x7d' :: post)).length ≤ fuel →
    interpGo f fuel (pre ++ '\x7b' :: '\x7b' :: (seg ++ '\x7d' :: '\x7d' :: post))
      = pre ++ f seg ++ interpGo f post.length post := by
  intro pre
  induction pre with
  | nil =>
    intro fuel h1 h2 hlen
    simp only [List.nil_append, List.length_cons, List.length_append] at hlen ⊢
    cases fuel with
    | zero => omega
    | succ fu =>
      rw [interpGo_brace_brace_some f fu (scanPlaceholder_complete seg post h3 h4)]
      rw [interpGo_fuel_irrel f fu post post.length (by omega) (le_refl _)]
  | cons c pre' ih =>
    intro fuel h1 h2 hlen
    cases fuel with
    | zero => simp at hlen
    | succ fu =>
      cases pre' with
      | nil =>
        have hc : c ≠ '\x7b' := by
          intro he
          exact h2 (by simp [he])
        show interpGo f (fu + 1)
            (c :: ('\x7b' :: '\x7b' :: (seg ++ '\x7d' :: '\x7d' :: post)))
          = [c] ++ f seg ++ interpGo f post.length post
        rw [interpGo_cons_ne f fu _ hc]
        simp only [List.cons_append, List.nil_append, List.length_cons,
          List.length_append] at hlen
        cases fu with
        | zero => omega
        | succ fu2 =>
          rw [interpGo_brace_brace_some f fu2 (scanPlaceholder_complete seg post h3 h4)]
          rw [interpGo_fuel_irrel f fu2 post post.length (by omega) (le_refl _)]
          rfl
      | cons c2 pre2 =>
        have h1' : ((c = '\x7b' && c2 = '\x7b') || hasDoubleBrace (c2 :: pre2)) = false := h1
        have hA : (decide (c = '\x7b') && decide (c2 = '\x7b')) = false := by
          cases hcc : (decide (c = '\x7b') && decide (c2 = '\x7b'))
          · rfl
          · rw [hcc] at h1'
            simp at h1'
        have hB : hasDoubleBrace (c2 :: pre2) = false := by
          cases hbb : hasDoubleBrace (c2 :: pre2)
          · rfl
          · rw [hbb] at h1'
            simp at h1'
        have h2' : (c2 :: pre2).getLast? ≠ some '\x7b' := by
          rwa [List.getLast?_cons_cons] at h2
        have hlen' : ((c2 :: pre2) ++ '\x7b' :: '\x7b'
            :: (seg ++ '\x7d' :: '\x7d' :: post)).length ≤ fu := by
          simp only [List.cons_append, List.length_cons] at hlen ⊢
          omega
        by_cases hc : c = '\x7b'
        · have hc2 : c2 ≠ '\x7b' := by
            subst hc
            simp at hA
            exact hA
          subst hc
          show interpGo f (fu + 1)
              ('\x7b' :: c2 :: (pre2 ++ '\x7b' :: '\x7b' :: (seg ++ '\x7d' :: '\x7d' :: post)))
            = ('\x7b' :: c2 :: pre2) ++ f seg ++ interpGo f post.length post
          rw [interpGo_brace_cons_ne f fu _ hc2]
          rw [show interpGo f fu
              (c2 :: (pre2 ++ '\x7b' :: '\x7b' :: (seg ++ '\x7d' :: '\x7d' :: post)))
            = interpGo f fu
              ((c2 :: pre2) ++ '\x7b' :: '\x7b' :: (seg ++ '\x7d' :: '\x7d' :: post)) from rfl]
          rw [ih fu hB h2' hlen']
          rfl
        · show interpGo f (fu + 1)
              (c :: ((c2 :: pre2) ++ '\x7b' :: '\x7b' :: (seg ++ '\x7d' :: '\x7d' :: post)))
            = (c :: c2 :: pre2) ++ f seg ++ interpGo f post.length post
          rw [interpGo_cons_ne f fu _ hc]
          rw [ih fu hB h2' hlen']
          rfl

/-- Claim C9: `interpolateTemplate` leaves text without a placeholder
opener unchanged, and replaces each leftmost placeholder
`\x7b\x7bpath\x7d\x7d` (non-empty path without `\x7d`) by the string form
of the value reached by following the trimmed dot-separated path through
the event — `"unknown"` when the path resolves to `undefined` or `null` —
then continues on the rest of the template. -/
theorem C9_interpolateTemplate (e : JVal) :
    (∀ t : String, hasDoubleBrace t.toList = false → interpolateTemplate t e = t) ∧
    (∀ pre seg post : List Char, hasDoubleBrace pre = false →
      pre.getLast? ≠ some '\x7b' → seg ≠ [] → (∀ c ∈ seg, c ≠ '\x7d') →
      interpolateTemplate
          (String.mk (pre ++ '\x7b' :: '\x7b' :: (seg ++ '\x7d' :: '\x7d' :: post))) e
        = String.mk (pre ++ (renderPlaceholder e (String.mk seg)).toList
            ++ (interpolateTemplate (String.mk post) e).toList)) := by
  constructor
  · intro t ht
    unfold interpolateTemplate
    rw [interpGo_no_double _ t.toList t.toList.length ht (le_refl _)]
    rfl
  · intro pre seg post h1 h2 h3 h4
    unfold interpolateTemplate
    rw [show (String.mk (pre ++ '\x7b' :: '\x7b' :: (seg ++ '\x7d' :: '\x7d' :: post))).toList
        = pre ++ '\x7b' :: '\x7b' :: (seg ++ '\x7d' :: '\x7d' :: post) from rfl]
    rw [interpGo_decompose _ seg post h3 h4 pre _ h1 h2 (le_refl _)]
    rfl

/-- Witness for C9 at a concrete event: a `payload.*` path interpolates
into surrounding text, a `provenance.*` path resolves at the start of a
template, a missing path renders as `unknown`, and placeholder-free text
passes through unchanged. -/
theorem C9_witness :
    interpolateTemplate "orgloop:\x7b\x7bpayload.pr_number\x7d\x7d"
        (JVal.obj [("source", JVal.str "github"),
          ("provenance", JVal.obj [("author", JVal.str "alice")]),
          ("payload", JVal.obj [("pr_number", JVal.num 42)])]) = "orgloop:42" ∧
    interpolateTemplate "\x7b\x7bprovenance.author\x7d\x7d"
        (JVal.obj [("source", JVal.str "github"),
          ("provenance", JVal.obj [("author", JVal.str "alice")]),
          ("payload", JVal.obj [("pr_number", JVal.num 42)])]) = "alice" ∧
    interpolateTemplate "\x7b\x7bpayload.missing\x7d\x7d"
        (JVal.obj [("source", JVal.str "github"),
          ("provenance", JVal.obj [("author", JVal.str "alice")]),
          ("payload", JVal.obj [("pr_number", JVal.num 42)])]) = "unknown" ∧
    interpolateTemplate "no placeholders"
        (JVal.obj [("source", JVal.str "github"),
          ("provenance", JVal.obj [("author", JVal.str "alice")]),
          ("payload", JVal.obj [("pr_number", JVal.num 42)])]) = "no placeholders" := by
  refine ⟨?_, ?_, ?_, ?_⟩
  · rw [show ("orgloop:\x7b\x7bpayload.pr_number\x7d\x7d" : String)
        = String.mk ("orgloop:".toList ++ '\x7b' :: '\x7b' :: ("payload.pr_number".toList
            ++ '\x7d' :: '\x7d' :: ([] : List Char))) from by decide]
    rw [(C9_interpolateTemplate _).2 "orgloop:".toList "payload.pr_number".toList []
        (by decide) (by decide) (by decide) (by decide)]
    decide
  · rw [show ("\x7b\x7bprovenance.author\x7d\x7d" : String)
        = String.mk (([] : List Char) ++ '\x7b' :: '\x7b' :: ("provenance.author".toList
            ++ '\x7d' :: '\x7d' :: ([] : List Char))) from by decide]
    rw [(C9_interpolateTemplate _).2 [] "provenance.author".toList []
        (by decide) (by decide) (by decide) (by decide)]
    decide
  · rw [show ("\x7b\x7bpayload.missing\x7d\x7d" : String)
        = String.mk (([] : List Char) ++ '\x7b' :: '\x7b' :: ("payload.missing".toList
            ++ '\x7d' :: '\x7d' :: ([] : List Char))) from by decide]
    rw [(C9_interpolateTemplate _).2 [] "payload.missing".toList []
        (by decide) (by decide) (by decide) (by decide)]
    decide
  · exact (C9_interpolateTemplate _).1 "no placeholders" (by decide)
